import Mathlib

/-!
slack-always-active: verification of the specification against the source

Shallow embedding of the Go sources of `slack-always-active`:

* `src/schedule/schedule.go` — the schedule gate.  The file contains two
  variants of the package; the first (lines 1–202) is embedded with the
  suffix `V1`, the second (lines 203–405) with the suffix `V2`.
* `src/cache/cache.go` — the endpoint cache persisted as a JSON file.
* `src/slackws/websocket.go` — the WebSocket connection manager.
* `src/main.go` — the supervisor loop.

Times are modelled at minute granularity (the Go code only ever inspects
`Hour()`/`Minute()`/`Weekday()` and compares instants built with zero
seconds), machine integers as unbounded `Int` (no arithmetic here comes
near the `int64` bounds), and Go's truncated `%` operator as `Int.tmod`.
-/

/-! ## Schedule gate (src/schedule/schedule.go) -/

/-- An instant in UTC, in whole minutes since a reference midnight that fell
on a Sunday (Go `time.Weekday` numbering: Sunday = 0, Monday = 1, …). -/
abbrev Instant := Int

/-- Go's `%` on `int` is truncated remainder, i.e. `Int.tmod`. -/
def goMod (a b : Int) : Int := Int.tmod a b

/-- Calendar day index of an instant (`t.Truncate(24h)` is `dayOf t * 1440`).
Lean's `/` on `Int` is Euclidean division, which is floor division for the
positive divisor `1440`, matching Go's calendar arithmetic. -/
def dayOf (t : Instant) : Int := t / 1440

/-- Minute of day of an instant, in `[0, 1440)`. -/
def minuteOfDay (t : Instant) : Int := t % 1440

/-- `time.Time.Hour()` of an instant. -/
def hourOf (t : Instant) : Int := minuteOfDay t / 60

/-- `time.Time.Minute()` of an instant. -/
def minOf (t : Instant) : Int := minuteOfDay t % 60

/-- `time.Time.Weekday()` of an instant (Sunday = 0 … Saturday = 6). -/
def weekdayOf (t : Instant) : Int := dayOf t % 7

/-- The `Schedule` struct.  `workDays` holds `time.Weekday` values; the
configured start and end times of day are stored as minutes of day
(`Hour()*60 + Minute()` of the stored `time.Time` values, which is the only
way the Go code ever reads them); `offset` is the GMT offset in hours. -/
structure Schedule where
  workDays : List Int
  startT : Int
  endT : Int
  offset : Int
  deriving DecidableEq

/-- The configuration `NewSchedule` builds when no environment variables are
set: Monday–Friday, 09:00–17:00, GMT offset 0. -/
def defaultSchedule : Schedule :=
  { workDays := [1, 2, 3, 4, 5], startT := 540, endT := 1020, offset := 0 }

/-- `IsWorkingTime`, first variant (schedule.go lines 148–168).  The weekday
is taken from the *unadjusted* UTC time; only the hour is shifted by the
offset and wrapped with Go's `%` into the same day. -/
def IsWorkingTimeV1 (s : Schedule) (now : Instant) : Bool :=
  let weekday := weekdayOf now
  let adjustedHour := goMod (hourOf now + s.offset + 24) 24
  let currentTime := adjustedHour * 60 + minOf now
  let isWorkDay := s.workDays.contains weekday
  isWorkDay && decide (s.startT < currentTime) && decide (currentTime < s.endT)

/-- `IsWorkingTime`, second variant (schedule.go lines 331–358).  Here the
whole instant is shifted by the offset (`now.Add(offset hours)`), so the
weekday is that of the local wall-clock, and the hour/minute comparison is
done on same-day `time.Date` values, i.e. on minutes of day. -/
def IsWorkingTimeV2 (s : Schedule) (now : Instant) : Bool :=
  let nowL := now + s.offset * 60
  let isWorkDay := s.workDays.contains (weekdayOf nowL)
  let currentTime := hourOf nowL * 60 + minOf nowL
  isWorkDay && decide (s.startT < currentTime) && decide (currentTime < s.endT)

/-- Follows the spec's words (§4.1): “convert `now` (UTC) to local wall-clock
by adding `offsetHours`; return true iff the local weekday is in `workDays`
AND local time-of-day lies strictly between `start` and `end`.”  Used as the
yardstick the two `IsWorkingTime` variants are compared against. -/
def specIsActive (s : Schedule) (now : Instant) : Bool :=
  let localT := now + s.offset * 60
  s.workDays.contains (weekdayOf localT)
    && decide (s.startT < minuteOfDay localT)
    && decide (minuteOfDay localT < s.endT)

/-- The day-scanning loop of `GetNextWorkingTime`, first variant
(schedule.go lines 184–196).  The Go loop is unbounded (`for { … }`); it can
only fail to return when no element of `workDays` is a reachable weekday
value, in which case it never terminates — `fuel` makes the model total,
with `none` standing for that divergence.  Seven iterations visit every
weekday, so the callers' `fuel = 7` is exact. -/
def findNextWorkDayV1 (s : Schedule) (now : Instant) :
    Nat → Int → Int → Option Instant
  | 0, _, _ => none
  | fuel + 1, nextWorkDay, daysToAdd =>
    let nd := goMod (nextWorkDay + 1) 7
    let da := daysToAdd + 1
    if s.workDays.contains nd then
      let startHour := goMod (s.startT / 60 - s.offset + 24) 24
      some ((dayOf now + da) * 1440 + startHour * 60 + s.startT % 60)
    else
      findNextWorkDayV1 s now fuel nd da

/-- `GetNextWorkingTime`, first variant (schedule.go lines 170–197).  If the
offset-wrapped time of day lies strictly inside the window (no weekday test!)
it returns today's UTC date with hour `(end.Hour − offset) % 24`; otherwise
it scans forward from the UTC weekday. -/
def GetNextWorkingTimeV1 (s : Schedule) (now : Instant) : Option Instant :=
  let adjustedHour := goMod (hourOf now + s.offset + 24) 24
  let currentTime := adjustedHour * 60 + minOf now
  if s.startT < currentTime ∧ currentTime < s.endT then
    let endHour := goMod (s.endT / 60 - s.offset + 24) 24
    some (dayOf now * 1440 + endHour * 60 + s.endT % 60)
  else
    findNextWorkDayV1 s now 7 (weekdayOf now) 0

/-- The day-scanning loop of `GetNextWorkingTime`, second variant
(schedule.go lines 378–396), starting at `nextDay` and stepping by 24 h.
The Go loop is unbounded; `none` again models divergence, and `fuel = 7`
covers every weekday. -/
def findNextWorkDayV2 (s : Schedule) : Nat → Instant → Option Instant
  | 0, _ => none
  | fuel + 1, nextDay =>
    if s.workDays.contains (weekdayOf nextDay) then
      some (dayOf nextDay * 1440 + s.startT - s.offset * 60)
    else
      findNextWorkDayV2 s fuel (nextDay + 1440)

/-- `GetNextWorkingTime`, second variant (schedule.go lines 360–401), acting
on the offset-shifted instant `nowL`: before `start` it returns today's local
start minus the offset (no weekday test); after `end` it scans forward from
tomorrow; inside `[start, end]` it returns `now` itself (`nowL - offset`). -/
def GetNextWorkingTimeV2 (s : Schedule) (now : Instant) : Option Instant :=
  let nowL := now + s.offset * 60
  let currentTime := hourOf nowL * 60 + minOf nowL
  if currentTime < s.startT then
    some (dayOf nowL * 1440 + s.startT - s.offset * 60)
  else if s.endT < currentTime then
    findNextWorkDayV2 s 7 (nowL + 1440)
  else
    some (nowL - s.offset * 60)

/-- `[1, 2, …, n]` as integers: the candidate day distances of the
`GetNextWorkingTime` scans. -/
def offsetsUpTo : Nat → List Int
  | 0 => []
  | n + 1 => 1 :: (offsetsUpTo n).map (· + 1)

/-- `[0, 1, …, n−1]` as integers. -/
def offsetsFrom0 : Nat → List Int
  | 0 => []
  | n + 1 => 0 :: (offsetsFrom0 n).map (· + 1)

/-- The least day distance `j ∈ [1, 7]` for which weekday `w + j (mod 7)` is
a work day, if any: the closed form of both day scans. -/
def nextWorkDayDelta (workDays : List Int) (w : Int) : Option Int :=
  (offsetsUpTo 7).find? (fun j => workDays.contains ((w + j) % 7))

/-- Closed-form description of `GetNextWorkingTimeV1` (the amended claim C2
for the first variant): inside the window — today's end with the end hour
shifted by `−offset` and wrapped mod 24; otherwise the start time, shifted
and wrapped the same way, on the day the least `j ∈ [1,7]` ahead whose UTC
weekday is a work day. -/
def nextV1Spec (s : Schedule) (now : Instant) : Option Instant :=
  let currentTime := goMod (hourOf now + s.offset + 24) 24 * 60 + minOf now
  if s.startT < currentTime ∧ currentTime < s.endT then
    some (dayOf now * 1440 + goMod (s.endT / 60 - s.offset + 24) 24 * 60 + s.endT % 60)
  else
    (nextWorkDayDelta s.workDays (weekdayOf now)).map
      (fun j => (dayOf now + j) * 1440
        + goMod (s.startT / 60 - s.offset + 24) 24 * 60 + s.startT % 60)

/-- Closed-form description of `GetNextWorkingTimeV2` (the amended claim C2
for the second variant): before today's local start — that start minus the
offset, regardless of weekday; after the end — the start, minus the offset,
of the least `j ∈ [1,7]` local days ahead whose weekday is a work day;
inside `[start, end]` — `now` itself. -/
def nextV2Spec (s : Schedule) (now : Instant) : Option Instant :=
  let nowL := now + s.offset * 60
  if minuteOfDay nowL < s.startT then
    some (dayOf nowL * 1440 + s.startT - s.offset * 60)
  else if s.endT < minuteOfDay nowL then
    (nextWorkDayDelta s.workDays (weekdayOf nowL)).map
      (fun j => (dayOf nowL + j) * 1440 + s.startT - s.offset * 60)
  else
    some now

/-! ### GMT offset parsing (both variants) -/

/-- ASCII whitespace, as recognised by `strings.TrimSpace` /
`fmt.Sscanf` on the ASCII inputs relevant here. -/
def isGoSpace (c : Char) : Bool :=
  c = ' ' || c = '\t' || c = '\n' || c = '\r' || c = Char.ofNat 11 || c = Char.ofNat 12

/-- ASCII lowering, as `strings.ToLower` acts on ASCII input. -/
def asciiLower (c : Char) : Char :=
  if 'A' ≤ c ∧ c ≤ 'Z' then Char.ofNat (c.toNat + 32) else c

/-- `strings.TrimSpace` on a character list. -/
def trimSpaceList (cs : List Char) : List Char :=
  ((cs.dropWhile isGoSpace).reverse.dropWhile isGoSpace).reverse

/-- Decimal digits to a natural number, most significant first. -/
def digitsToNat : List Char → Nat → Nat
  | [], acc => acc
  | c :: cs, acc => digitsToNat cs (acc * 10 + (c.toNat - 48))

/-- Shared body of `scanInt`: an optional sign has been consumed. -/
def scanIntCore (neg : Bool) (r : List Char) : Option Int :=
  let ds := r.takeWhile Char.isDigit
  if ds = [] then none
  else some ((if neg then -1 else 1) * (digitsToNat ds 0 : Int))

/-- `fmt.Sscanf(s, "%d", &n)`: skip leading whitespace, read an optional
sign and a digit run, ignore the rest; error when no digit follows. -/
def scanInt (cs : List Char) : Option Int :=
  match cs.dropWhile isGoSpace with
  | '-' :: r => scanIntCore true r
  | '+' :: r => scanIntCore false r
  | r => scanIntCore false r

/-- `parseGMTOffset` (schedule.go lines 72–102, first variant): requires a
`gmt+`/`gmt-` prefix after trimming and lowering, scans the hour with
`Sscanf "%d"`, rejects hours outside `[0, 23]`, and applies the sign. -/
def parseGMTOffset (offsetStr : String) : Option Int :=
  if offsetStr = "" then some 0
  else
    let t := (trimSpaceList offsetStr.data).map asciiLower
    if t.take 4 = ['g', 'm', 't', '+'] then
      match scanInt (t.drop 4) with
      | none => none
      | some hours => if hours < 0 ∨ 23 < hours then none else some (1 * hours)
    else if t.take 4 = ['g', 'm', 't', '-'] then
      match scanInt (t.drop 4) with
      | none => none
      | some hours => if hours < 0 ∨ 23 < hours then none else some (-1 * hours)
    else none

/-- `strings.TrimPrefix`: drop `pre` from the front when present, else
return the list unchanged (helper `matchPre` below returns the rest). -/
def matchPre : List Char → List Char → Option (List Char)
  | [], l => some l
  | _ :: _, [] => none
  | p :: ps, c :: cs => if c = p then matchPre ps cs else none

/-- `strings.TrimPrefix` on character lists. -/
def trimPrefixList (l pre : List Char) : List Char :=
  match matchPre pre l with
  | some r => r
  | none => l

/-- `strconv.Atoi`: the whole string must be an optional sign followed by at
least one digit.  (Int64 range errors are not modelled; no claim involves
inputs of that size.) -/
def atoi (s : String) : Option Int :=
  match s.data with
  | [] => none
  | '-' :: r =>
    if r ≠ [] ∧ r.all Char.isDigit then some (-(digitsToNat r 0 : Int)) else none
  | '+' :: r =>
    if r ≠ [] ∧ r.all Char.isDigit then some ((digitsToNat r 0 : Int)) else none
  | r => if r.all Char.isDigit then some ((digitsToNat r 0 : Int)) else none

/-- `parseOffset` (schedule.go lines 281–297, second variant): strip a
`GMT`/`gmt` prefix if present and `Atoi` the remainder — no range check. -/
def parseOffset (offsetStr : String) : Option Int :=
  if offsetStr = "" then some 0
  else
    let t := trimPrefixList (trimPrefixList offsetStr.data ['G', 'M', 'T']) ['g', 'm', 't']
    atoi (String.mk t)

/-! ## Endpoint cache (src/cache/cache.go)

The cache struct has one exported, JSON-tagged field, `WebSocketURL`
(`json:"websocket_url"`).  `save` writes `json.MarshalIndent(c, "", "  ")`
to the cache file; `load` reads the file and `json.Unmarshal`s it back.
`encodeCache`/`decodeCache` below model that round trip concretely: the
encoder reproduces `encoding/json`'s output for this struct byte for byte
(two-space indent, HTML-escaping on), and the decoder parses exactly the
strings the encoder can produce. -/

/-- `'{'` (kept out of string literals). -/
def openBraceChar : Char := Char.ofNat 123

/-- `'}'`. -/
def closeBraceChar : Char := Char.ofNat 125

/-- Lower-case hex digit, as `encoding/json` emits in `\u00xx` escapes. -/
def hexDigitChar (n : Nat) : Char :=
  if n < 10 then Char.ofNat (48 + n) else Char.ofNat (87 + n)

/-- Characters `encoding/json` (with HTML escaping, the default used by
`json.MarshalIndent`) renders as a `\uXXXX` escape: control characters
other than `\n`, `\r`, `\t`, the HTML-sensitive `<`, `>`, `&`, and the line
separators U+2028/U+2029. -/
def needsUEscape (c : Char) : Bool :=
  decide (c.toNat < 32) || c = '<' || c = '>' || c = '&'
    || decide (c.toNat = 8232) || decide (c.toNat = 8233)

/-- `encoding/json`'s escaping of one character inside a string literal. -/
def escChar (c : Char) : List Char :=
  if c = '"' then ['\\', '"']
  else if c = '\\' then ['\\', '\\']
  else if c = '\n' then ['\\', 'n']
  else if c = '\r' then ['\\', 'r']
  else if c = '\t' then ['\\', 't']
  else if needsUEscape c then
    ['\\', 'u', hexDigitChar (c.toNat / 4096 % 16), hexDigitChar (c.toNat / 256 % 16),
      hexDigitChar (c.toNat / 16 % 16), hexDigitChar (c.toNat % 16)]
  else [c]

/-- Escape a whole string body. -/
def escList : List Char → List Char
  | [] => []
  | c :: cs => escChar c ++ escList cs

/-- Everything `MarshalIndent` emits before the URL string's characters. -/
def jsonPre : List Char :=
  [openBraceChar, '\n', ' ', ' ', '"', 'w', 'e', 'b', 's', 'o', 'c', 'k', 'e', 't',
    '_', 'u', 'r', 'l', '"', ':', ' ', '"']

/-- Everything after the closing quote of the URL string. -/
def jsonSuf : List Char := ['\n', closeBraceChar]

/-- `json.MarshalIndent(c, "", "  ")` for the cache struct. -/
def encodeCache (u : String) : String :=
  String.mk (jsonPre ++ escList u.data ++ '"' :: jsonSuf)

/-- Value of a hex digit, as `encoding/json`'s decoder accepts it. -/
def hexVal (c : Char) : Option Nat :=
  if '0' ≤ c ∧ c ≤ '9' then some (c.toNat - 48)
  else if 'a' ≤ c ∧ c ≤ 'f' then some (c.toNat - 87)
  else if 'A' ≤ c ∧ c ≤ 'F' then some (c.toNat - 55)
  else none

/-- `encoding/json`'s string-body decoder: consume characters up to the
closing quote, resolving escapes, and return the decoded body together with
the input that follows the quote.  (Surrogate-pair recombination for
`\uXXXX` escapes is not modelled; the encoder never emits lone or paired
surrogates for the valid scalar values a Lean `Char` can hold.) -/
def unesc : List Char → Option (List Char × List Char)
  | [] => none
  | c :: rest =>
    if c = '"' then some ([], rest)
    else if c = '\\' then
      match rest with
      | [] => none
      | e :: r =>
        if e = '"' then (unesc r).map (fun p => ('"' :: p.1, p.2))
        else if e = '\\' then (unesc r).map (fun p => ('\\' :: p.1, p.2))
        else if e = '/' then (unesc r).map (fun p => ('/' :: p.1, p.2))
        else if e = 'n' then (unesc r).map (fun p => ('\n' :: p.1, p.2))
        else if e = 'r' then (unesc r).map (fun p => ('\r' :: p.1, p.2))
        else if e = 't' then (unesc r).map (fun p => ('\t' :: p.1, p.2))
        else if e = 'b' then (unesc r).map (fun p => (Char.ofNat 8 :: p.1, p.2))
        else if e = 'f' then (unesc r).map (fun p => (Char.ofNat 12 :: p.1, p.2))
        else if e = 'u' then
          match r with
          | h1 :: h2 :: h3 :: h4 :: r' =>
            match hexVal h1, hexVal h2, hexVal h3, hexVal h4 with
            | some a, some b, some c3, some d =>
              (unesc r').map
                (fun p => (Char.ofNat (a * 4096 + b * 256 + c3 * 16 + d) :: p.1, p.2))
            | _, _, _, _ => none
          | _ => none
        else none
    else (unesc rest).map (fun p => (c :: p.1, p.2))

/-- `json.Unmarshal` into the cache struct, specialised to the exact shape
`save` writes: the fixed object skeleton around one string field. -/
def decodeCache (s : String) : Option String :=
  (matchPre jsonPre s.data).bind fun r =>
    (unesc r).bind fun p =>
      if p.2 = jsonSuf then some (String.mk p.1) else none

/-- The state of a `cache.Cache`: the in-memory `WebSocketURL` field plus
the contents of its cache file (`none` = file absent). -/
structure CacheState where
  WebSocketURL : String
  file : Option String
  deriving DecidableEq

/-- `GetWebSocketURL` (cache.go lines 63–67). -/
def GetWebSocketURL (c : CacheState) : String := c.WebSocketURL

/-- `save` (cache.go lines 51–61): marshal the struct and write the file.
`diskOk` is the environment's verdict on the `os.WriteFile` call; on failure
the file keeps its old contents and the error is returned (`false`). -/
def save (c : CacheState) (diskOk : Bool) : CacheState × Bool :=
  if diskOk then ({ c with file := some (encodeCache c.WebSocketURL) }, true)
  else (c, false)

/-- `SetWebSocketURL` (cache.go lines 69–74): update the in-memory value
under the lock, then `save`. -/
def SetWebSocketURL (c : CacheState) (url : String) (diskOk : Bool) :
    CacheState × Bool :=
  save { c with WebSocketURL := url } diskOk

/-- `NewCache`+`load` (cache.go lines 17–49) as a fresh process runs them:
an absent file is fine and leaves the zero value; a present file must
unmarshal, else construction fails (`none`). -/
def loadCache (file : Option String) : Option CacheState :=
  match file with
  | none => some { WebSocketURL := "", file := none }
  | some data =>
    (decodeCache data).map fun u => { WebSocketURL := u, file := some data }

/-! ## WebSocket connection manager (src/slackws/websocket.go) -/

/-- The `SlackWebSocket` struct.  `conn` records whether a transport handle
is held (`s.conn != nil`); the mutex, being only an atomicity device, has no
observable state of its own in this sequentialised model. -/
structure SlackWebSocket where
  conn : Bool
  token : String
  cookie : String
  pingID : Int
  lastPingID : Int
  closed : Bool
  isConnected : Bool
  cache : CacheState
  deriving DecidableEq

/-- `NewSlackWebSocket` (websocket.go lines 43–53). -/
def NewSlackWebSocket (token cookie : String) (cache : CacheState) : SlackWebSocket :=
  { conn := false, token := token, cookie := cookie, pingID := 1, lastPingID := 0,
    closed := false, isConnected := false, cache := cache }

/-- The URL `Connect` builds (websocket.go line 67): `fmt.Sprintf` of the
default endpoint with the token interpolated (`%%` is a literal `%`). -/
def defaultWebSocketURL (token : String) : String :=
  "wss://wss-primary.slack.com/?token=" ++ token ++
    "&sync_desync=1&slack_client=desktop&start_args=%3Fagent%3Dclient%26org_wide_aware%3Dtrue%26agent_version%3D1742552854%26eac_cache_ts%3Dtrue%26cache_ts%3D0%26name_tagging%3Dtrue%26only_self_subteams%3Dtrue%26connect_only%3Dtrue%26ms_latest%3Dtrue&no_query_on_subscribe=1&flannel=3&lazy_channels=1&gateway_server=T05N3TFM0RW-4&batch_presence_aware=1"

/-- `Connect` (websocket.go lines 55–89): reset the per-generation state,
build the dial URL, dial (`dialOk` is the environment's verdict), and only
on success install the transport and mark connected.  Returns the new
state, the success flag, and the URL that was dialed.  Note that on a dial
failure `conn` is left as it was. -/
def Connect (s : SlackWebSocket) (dialOk : Bool) : SlackWebSocket × Bool × String :=
  let s1 := { s with pingID := 1, lastPingID := 0, closed := false, isConnected := false }
  let url := defaultWebSocketURL s.token
  if dialOk then ({ s1 with conn := true, isConnected := true }, true, url)
  else (s1, false, url)

/-- `IsConnected` (websocket.go lines 111–115); suffixed to avoid clashing
with Mathlib's `IsConnected`. -/
def IsConnectedWS (s : SlackWebSocket) : Bool := s.isConnected

/-- `sendPing` (websocket.go lines 117–144): guard on a live connection,
record `lastPingID := pingID`, write the `{"type":"ping","id":pingID}`
frame (`writeOk` is the environment's verdict), and only on a successful
write increment `pingID`.  The second component is the id carried by the
frame the peer actually received (`none` when no frame was delivered). -/
def sendPing (s : SlackWebSocket) (writeOk : Bool) : SlackWebSocket × Option Int :=
  if !s.conn || s.closed || !s.isConnected then (s, none)
  else
    let s1 := { s with lastPingID := s.pingID }
    if writeOk then ({ s1 with pingID := s.pingID + 1 }, some s.pingID)
    else ({ s1 with isConnected := false }, none)

/-- `Close` (websocket.go lines 91–109). -/
def Close (s : SlackWebSocket) : SlackWebSocket :=
  if s.closed then s
  else { s with closed := true, isConnected := false, conn := false }

/-- `Disconnect` (websocket.go lines 212–221). -/
def Disconnect (s : SlackWebSocket) : SlackWebSocket :=
  if s.conn then { s with conn := false, isConnected := false } else s

/-- The read-error path of `ReadMessages` (websocket.go lines 179–184):
mark disconnected and return the error to the caller. -/
def readFailStep (s : SlackWebSocket) : SlackWebSocket :=
  { s with isConnected := false }

/-- An inbound frame as the trial `json.Unmarshal`s see it: the
discriminating `type` field, `reply_to` (0 when absent) and `url` (""
when absent). -/
structure InboundMessage where
  type : String
  replyTo : Int
  url : String
  deriving DecidableEq

/-- The log calls the message classifier can make.  `persistFailure` is the
event a log of a failed cache write would be — no code path emits it. -/
inductive LogEvent where
  | matchingPong (id : Int)
  | pongMismatch (expected got : Int)
  | newReconnectURL
  | otherMessage
  | persistFailure
  deriving DecidableEq

/-- Is this log event the pong-mismatch warning? -/
def isMismatchWarning : LogEvent → Bool
  | .pongMismatch _ _ => true
  | _ => false

/-- The message-classification body of `ReadMessages` (websocket.go lines
186–206): pong frames are matched against `lastPingID` and logged, a
reconnect hint updates the cache (its `SetWebSocketURL` error is discarded),
anything else is logged generically.  Returns the new state, the log events
emitted, and whether the read loop continues (it always does). -/
def handleInboundMessage (s : SlackWebSocket) (m : InboundMessage) (diskOk : Bool) :
    SlackWebSocket × List LogEvent × Bool :=
  if m.type = "pong" then
    if m.replyTo = s.lastPingID then (s, [.matchingPong m.replyTo], true)
    else (s, [.pongMismatch s.lastPingID m.replyTo], true)
  else if m.type = "reconnect_url" then
    ({ s with cache := (SetWebSocketURL s.cache m.url diskOk).1 }, [.newReconnectURL], true)
  else (s, [.otherMessage], true)

/-- The observable operations on a `SlackWebSocket`, with the environment's
success verdicts attached. -/
inductive WSEvent where
  | connect (dialOk : Bool)
  | ping (writeOk : Bool)
  | inbound (m : InboundMessage) (diskOk : Bool)
  | readFail
  | close
  | disconnect
  deriving DecidableEq

/-- One operation; the second component lists the ids of keepalive frames
delivered by it. -/
def wsStep (s : SlackWebSocket) (e : WSEvent) : SlackWebSocket × List Int :=
  match e with
  | .connect ok => ((Connect s ok).1, [])
  | .ping ok =>
    let r := sendPing s ok
    (r.1, r.2.toList)
  | .inbound m diskOk => ((handleInboundMessage s m diskOk).1, [])
  | .readFail => (readFailStep s, [])
  | .close => (Close s, [])
  | .disconnect => (Disconnect s, [])

/-- Run a sequence of operations, collecting all delivered keepalive ids. -/
def wsRun (s : SlackWebSocket) : List WSEvent → SlackWebSocket × List Int
  | [] => (s, [])
  | e :: es =>
    let r := wsStep s e
    let rs := wsRun r.1 es
    (rs.1, r.2 ++ rs.2)

/-- Is the event a `Connect` call (i.e. the start of a new generation)? -/
def isConnectEvent : WSEvent → Bool
  | .connect _ => true
  | _ => false

/-- Is the event a *successful* `Connect`? -/
def isConnectOkEvent : WSEvent → Bool
  | .connect true => true
  | _ => false

/-- `[a, a+1, …, a+n−1]`: the expected keepalive id sequence. -/
def idsFrom (a : Int) : Nat → List Int
  | 0 => []
  | n + 1 => a :: idsFrom (a + 1) n

/-! ## Supervisor (src/main.go) -/

/-- What one pass of the supervisor's `for` loop (main.go lines 117–132)
does next. -/
inductive LoopOutcome where
  | sleepRetry (seconds : Nat)
  | loopAgain
  | terminate
  deriving DecidableEq

/-- One iteration of the supervisor loop: a failed `Connect` logs and sleeps
5 s, a failed `ReadMessages` closes, logs and sleeps 5 s, and a clean
`ReadMessages` return re-enters the loop immediately.  No path leaves the
loop or exits the process (`terminate` is unreachable). -/
def mainLoopIter (connectErr : Bool) (readErr : Bool) : LoopOutcome :=
  if connectErr then .sleepRetry 5
  else if readErr then .sleepRetry 5
  else .loopAgain

/-! ## Concrete fixtures used by counterexamples and witnesses -/

/-- A schedule whose +5 h offset pushes a late-Monday UTC instant across
midnight into Tuesday: work day Tuesday, window 03:00–04:00 local. -/
def offsetCrossSchedule : Schedule :=
  { workDays := [2], startT := 180, endT := 240, offset := 5 }

/-- A cache already holding a (non-empty) reconnect endpoint. -/
def cacheFixture : CacheState :=
  { WebSocketURL := "wss://cached.example/ws", file := none }

/-- A freshly constructed manager whose cache holds `cacheFixture`. -/
def wsFixture : SlackWebSocket := NewSlackWebSocket "tok" "ck" cacheFixture

/-! # Theorems -/

/-! ## Helper lemmas -/

/-- Minute-of-day values are canonical: `Hour()*60 + Minute()` recovers the
minute of day. -/
theorem hourOf_minOf (t : Instant) : hourOf t * 60 + minOf t = minuteOfDay t := by
  unfold hourOf minOf minuteOfDay
  omega

theorem minuteOfDay_nonneg (t : Instant) : 0 ≤ minuteOfDay t := by
  unfold minuteOfDay; omega

theorem minuteOfDay_lt (t : Instant) : minuteOfDay t < 1440 := by
  unfold minuteOfDay; omega

theorem weekdayOf_nonneg (t : Instant) : 0 ≤ weekdayOf t := by
  unfold weekdayOf dayOf; omega

/-- `handleInboundMessage` never touches the ping counters or the
connection flags — it only ever updates the cache. -/
theorem handleInboundMessage_preserves (s : SlackWebSocket) (m : InboundMessage)
    (diskOk : Bool) :
    (handleInboundMessage s m diskOk).1.pingID = s.pingID ∧
    (handleInboundMessage s m diskOk).1.lastPingID = s.lastPingID ∧
    (handleInboundMessage s m diskOk).1.isConnected = s.isConnected ∧
    (handleInboundMessage s m diskOk).1.conn = s.conn ∧
    (handleInboundMessage s m diskOk).1.closed = s.closed := by
  unfold handleInboundMessage
  split
  · split <;> simp
  · split <;> simp

/-! ## C4 — endpoint selection in Connect -/

/-- C4 counterexample: with a non-empty cached endpoint in place, `Connect`
does not dial the cached URL (it dials the token-built default), refuting
“the endpoint dialed is the cached endpoint when the endpoint cache holds a
non-empty URL”. -/
theorem connect_ignores_cache_counterexample :
    GetWebSocketURL wsFixture.cache ≠ "" ∧
    (Connect wsFixture true).2.2 ≠ GetWebSocketURL wsFixture.cache := by
  constructor <;> decide

/-- C4 amended: the URL `Connect` dials never depends on the cache — for
every state it is exactly the default endpoint built from the credential
token, whatever the cache holds. -/
theorem connect_always_dials_default :
    ∀ (s : SlackWebSocket) (c : CacheState) (dialOk : Bool),
      (Connect { s with cache := c } dialOk).2.2 = (Connect s dialOk).2.2 ∧
      (Connect s dialOk).2.2 = defaultWebSocketURL s.token := by
  intro s c dialOk
  cases dialOk <;> simp [Connect]

/-! ## C5 — pong handling -/

/-- C5: for every inbound frame classified as a pong, a mismatch warning is
logged iff its `reply_to` differs from the id of the most recently sent
ping, and in both cases the read loop continues with the connection state
untouched. -/
theorem pong_mismatch_warning_iff (s : SlackWebSocket) (m : InboundMessage)
    (diskOk : Bool) (h : m.type = "pong") :
    ((handleInboundMessage s m diskOk).2.1.any isMismatchWarning = true ↔
      m.replyTo ≠ s.lastPingID) ∧
    (handleInboundMessage s m diskOk).2.2 = true ∧
    (handleInboundMessage s m diskOk).1 = s := by
  unfold handleInboundMessage
  rw [h]
  by_cases hr : m.replyTo = s.lastPingID <;>
    simp [hr, isMismatchWarning]

/-- C5 witness: a pong with `reply_to = 6` while the last sent id was 5. -/
theorem pong_mismatch_warning_iff_witness :
    (InboundMessage.mk "pong" 6 "").type = "pong" ∧
    (((handleInboundMessage { wsFixture with lastPingID := 5 }
        (InboundMessage.mk "pong" 6 "") true).2.1.any isMismatchWarning = true ↔
      (InboundMessage.mk "pong" 6 "").replyTo ≠
        ({ wsFixture with lastPingID := 5 } : SlackWebSocket).lastPingID) ∧
    (handleInboundMessage { wsFixture with lastPingID := 5 }
        (InboundMessage.mk "pong" 6 "") true).2.2 = true ∧
    (handleInboundMessage { wsFixture with lastPingID := 5 }
        (InboundMessage.mk "pong" 6 "") true).1 =
      { wsFixture with lastPingID := 5 }) :=
  ⟨rfl, pong_mismatch_warning_iff { wsFixture with lastPingID := 5 }
    (InboundMessage.mk "pong" 6 "") true rfl⟩

/-! ## C6 — supervisor retry on Connect failure -/

/-- C6: when `Connect` fails, the supervisor iteration sleeps the fixed 5 s
backoff and re-enters the loop, and no iteration outcome ever terminates
the process. -/
theorem supervisor_retries_connect_failure :
    ∀ (connectErr readErr : Bool),
      mainLoopIter true readErr = .sleepRetry 5 ∧
      mainLoopIter connectErr readErr ≠ .terminate := by
  intro connectErr readErr
  cases connectErr <;> cases readErr <;> decide

/-! ## C8 — reconnect hint with a failing cache write -/

/-- C8 counterexample: on an inbound reconnect hint whose cache write fails,
the write error is reported by `SetWebSocketURL` but the read loop discards
it — the emitted log is exactly the reconnect notice, with no
persistence-failure entry, refuting “the failure is … logged”.  (The
in-memory update itself does happen.) -/
theorem reconnect_save_error_not_logged_counterexample :
    (handleInboundMessage wsFixture (InboundMessage.mk "reconnect_url" 0 "wss://x") false).2.1
      = [LogEvent.newReconnectURL] ∧
    LogEvent.persistFailure ∉
      (handleInboundMessage wsFixture (InboundMessage.mk "reconnect_url" 0 "wss://x") false).2.1 ∧
    GetWebSocketURL
      (handleInboundMessage wsFixture (InboundMessage.mk "reconnect_url" 0 "wss://x") false).1.cache
      = "wss://x" ∧
    (SetWebSocketURL wsFixture.cache "wss://x" false).2 = false := by
  decide

/-- C8 amended: processing an inbound reconnect-hint frame carrying `u`
updates the in-memory cache so `GetWebSocketURL` returns `u` and the read
loop continues, regardless of whether the disk write succeeds; the failure
is silently discarded (no log event records it), and on failure the file
keeps its old contents (the update is not durable). -/
theorem reconnect_hint_updates_memory :
    ∀ (s : SlackWebSocket) (u : String) (diskOk : Bool),
      GetWebSocketURL
        (handleInboundMessage s (InboundMessage.mk "reconnect_url" 0 u) diskOk).1.cache = u ∧
      (handleInboundMessage s (InboundMessage.mk "reconnect_url" 0 u) diskOk).2.2 = true ∧
      LogEvent.persistFailure ∉
        (handleInboundMessage s (InboundMessage.mk "reconnect_url" 0 u) diskOk).2.1 ∧
      (handleInboundMessage s (InboundMessage.mk "reconnect_url" 0 u) diskOk).1.cache.file
        = (if diskOk then some (encodeCache u) else s.cache.file) := by
  intro s u diskOk
  cases diskOk <;>
    simp [handleInboundMessage, SetWebSocketURL, save, GetWebSocketURL]

/-! ## C9 — GMT offset range checking -/

/-- C9 counterexample: the second variant's `parseOffset` accepts
`"GMT+30"`, yielding an offset of 30 hours, outside `[-23, 23]` — the
out-of-range offset is not rejected. -/
theorem parseOffset_no_range_check_counterexample :
    parseOffset "GMT+30" = some 30 ∧ ¬ ((30 : Int) ≤ 23) := by
  constructor
  · decide
  · decide

/-- C9 amended: the first variant's `parseGMTOffset` (lines 72–102) indeed
confines every accepted configuration to an offset in `[-23, 23]`, but the
second variant's `parseOffset` (lines 281–297) performs no range check and
accepts any integer, e.g. `GMT+30`. -/
theorem gmt_offset_range (str : String) (h : Int)
    (hp : parseGMTOffset str = some h) :
    (-23 ≤ h ∧ h ≤ 23) ∧ parseOffset "GMT+30" = some 30 := by
  refine ⟨?_, by decide⟩
  unfold parseGMTOffset at hp
  split at hp
  · simp only [Option.some.injEq] at hp
    omega
  · simp only [] at hp
    split at hp
    · split at hp
      · simp at hp
      · split at hp
        · simp at hp
        · simp only [Option.some.injEq] at hp
          omega
    · split at hp
      · split at hp
        · simp at hp
        · split at hp
          · simp at hp
          · simp only [Option.some.injEq] at hp
            omega
      · simp at hp

/-- C9 witness: `GMT+5` is accepted and lies inside the range. -/
theorem gmt_offset_range_witness :
    parseGMTOffset "GMT+5" = some 5 ∧
    (((-23 : Int) ≤ 5 ∧ (5 : Int) ≤ 23) ∧ parseOffset "GMT+30" = some 30) :=
  ⟨by decide, gmt_offset_range "GMT+5" 5 (by decide)⟩

/-! ## C3 — keepalive id sequence within a generation -/

/-- `sendPing` evaluated when the connection guard rejects: no state change,
no frame. -/
theorem sendPing_guard (s : SlackWebSocket) (ok : Bool)
    (hg : (!s.conn || s.closed || !s.isConnected) = true) :
    sendPing s ok = (s, none) := by
  unfold sendPing
  rw [if_pos hg]

/-- `sendPing` evaluated on a live connection with a successful write. -/
theorem sendPing_ok (s : SlackWebSocket)
    (hg : (!s.conn || s.closed || !s.isConnected) = false) :
    sendPing s true
      = ({ s with lastPingID := s.pingID, pingID := s.pingID + 1 }, some s.pingID) := by
  unfold sendPing
  simp [hg]

/-- `sendPing` evaluated on a live connection when the write fails. -/
theorem sendPing_fail (s : SlackWebSocket)
    (hg : (!s.conn || s.closed || !s.isConnected) = false) :
    sendPing s false
      = ({ s with lastPingID := s.pingID, isConnected := false }, none) := by
  unfold sendPing
  simp [hg]

/-- `Connect` evaluated on a dial failure: counters reset, still
disconnected, the transport field untouched. -/
theorem connect_fail_eq (s : SlackWebSocket) :
    Connect s false
      = ({ s with pingID := 1, lastPingID := 0, closed := false, isConnected := false },
          false, defaultWebSocketURL s.token) := by
  unfold Connect
  simp

/-- As long as no further `Connect` happens, the keepalive ids delivered by
a run are the consecutive integers starting at the current `pingID`. -/
theorem wsRun_ping_ids (evs : List WSEvent) :
    ∀ s : SlackWebSocket, evs.all (fun e => !isConnectEvent e) = true →
      (wsRun s evs).2 = idsFrom s.pingID (wsRun s evs).2.length := by
  induction evs with
  | nil => intro s _; rfl
  | cons e es ih =>
    intro s hall
    simp only [List.all_cons, Bool.and_eq_true] at hall
    obtain ⟨he, hes⟩ := hall
    match e with
    | .connect ok => simp [isConnectEvent] at he
    | .ping ok =>
      simp only [wsRun, wsStep]
      by_cases hg : (!s.conn || s.closed || !s.isConnected) = true
      · rw [sendPing_guard s ok hg]
        simpa using ih s hes
      · have hg' : (!s.conn || s.closed || !s.isConnected) = false := by
          simpa using hg
        cases ok with
        | true =>
          rw [sendPing_ok s hg']
          have htail := ih { s with lastPingID := s.pingID, pingID := s.pingID + 1 } hes
          simp only [Option.toList, List.singleton_append, List.length_cons, idsFrom]
          simpa using htail
        | false =>
          rw [sendPing_fail s hg']
          simpa using ih { s with lastPingID := s.pingID, isConnected := false } hes
    | .inbound m diskOk =>
      simp only [wsRun, wsStep, List.nil_append]
      have hpid := (handleInboundMessage_preserves s m diskOk).1
      rw [← hpid]
      exact ih _ hes
    | .readFail =>
      simp only [wsRun, wsStep, List.nil_append]
      exact ih _ hes
    | .close =>
      simp only [wsRun, wsStep, List.nil_append]
      have : (Close s).pingID = s.pingID := by unfold Close; split <;> rfl
      rw [← this]
      exact ih _ hes
    | .disconnect =>
      simp only [wsRun, wsStep, List.nil_append]
      have : (Disconnect s).pingID = s.pingID := by unfold Disconnect; split <;> rfl
      rw [← this]
      exact ih _ hes

/-- C3: a successful `Connect` resets the ping counter to 1 and the
last-sent id to 0, and within the generation it starts (no further
`Connect` call), the ids carried by the delivered keepalive frames are
exactly 1, 2, 3, …. -/
theorem keepalive_ids_consecutive (s : SlackWebSocket) (evs : List WSEvent)
    (h : evs.all (fun e => !isConnectEvent e) = true) :
    ((Connect s true).1.pingID = 1 ∧ (Connect s true).1.lastPingID = 0) ∧
    (wsRun (Connect s true).1 evs).2
      = idsFrom 1 (wsRun (Connect s true).1 evs).2.length := by
  refine ⟨⟨rfl, rfl⟩, ?_⟩
  have := wsRun_ping_ids evs (Connect s true).1 h
  simpa using this

/-- C3 witness: two delivered pings, then a failed write, then a ping that
hits the closed-connection guard — the delivered ids are `[1, 2]`. -/
theorem keepalive_ids_consecutive_witness :
    ([WSEvent.ping true, .ping true, .ping false, .ping true].all
      (fun e => !isConnectEvent e) = true) ∧
    (((Connect wsFixture true).1.pingID = 1 ∧ (Connect wsFixture true).1.lastPingID = 0) ∧
    (wsRun (Connect wsFixture true).1
        [WSEvent.ping true, .ping true, .ping false, .ping true]).2
      = idsFrom 1 (wsRun (Connect wsFixture true).1
        [WSEvent.ping true, .ping true, .ping false, .ping true]).2.length) :=
  ⟨by decide, keepalive_ids_consecutive wsFixture
    [WSEvent.ping true, .ping true, .ping false, .ping true] (by decide)⟩

/-! ## C10 — a failed Connect leaves the manager disconnected -/

/-- Once disconnected, a run containing no successful `Connect` stays
disconnected, and if no transport handle was held none appears. -/
theorem wsRun_stays_disconnected (evs : List WSEvent) :
    ∀ s : SlackWebSocket, evs.all (fun e => !isConnectOkEvent e) = true →
      s.isConnected = false →
      (wsRun s evs).1.isConnected = false ∧
      (s.conn = false → (wsRun s evs).1.conn = false) := by
  induction evs with
  | nil => intro s _ hic; exact ⟨hic, fun hc => hc⟩
  | cons e es ih =>
    intro s hall hic
    simp only [List.all_cons, Bool.and_eq_true] at hall
    obtain ⟨he, hes⟩ := hall
    match e with
    | .connect ok =>
      cases ok with
      | true => simp [isConnectOkEvent] at he
      | false =>
        simp only [wsRun, wsStep, connect_fail_eq]
        have := ih { s with pingID := 1, lastPingID := 0, closed := false, isConnected := false } hes rfl
        exact ⟨this.1, fun hc => this.2 hc⟩
    | .ping ok =>
      simp only [wsRun, wsStep]
      have hg : (!s.conn || s.closed || !s.isConnected) = true := by
        simp [hic]
      unfold sendPing
      rw [if_pos hg]
      exact ih s hes hic
    | .inbound m diskOk =>
      simp only [wsRun, wsStep]
      have hpres := handleInboundMessage_preserves s m diskOk
      have := ih (handleInboundMessage s m diskOk).1 hes (by rw [hpres.2.2.1, hic])
      exact ⟨this.1, fun hc => this.2 (by rw [hpres.2.2.2.1, hc])⟩
    | .readFail =>
      simp only [wsRun, wsStep, readFailStep]
      have := ih { s with isConnected := false } hes rfl
      exact ⟨this.1, fun hc => this.2 hc⟩
    | .close =>
      simp only [wsRun, wsStep]
      unfold Close
      by_cases hcl : s.closed = true
      · rw [if_pos hcl]
        exact ih s hes hic
      · rw [if_neg hcl]
        have := ih { s with closed := true, isConnected := false, conn := false } hes rfl
        exact ⟨this.1, fun _ => this.2 rfl⟩
    | .disconnect =>
      simp only [wsRun, wsStep]
      unfold Disconnect
      by_cases hc : s.conn = true
      · rw [if_pos hc]
        have := ih { s with conn := false, isConnected := false } hes rfl
        exact ⟨this.1, fun _ => this.2 rfl⟩
      · rw [if_neg hc]
        exact ih s hes hic

/-- C10: whenever `Connect` fails, the manager is left disconnected —
`IsConnected` reports `false`, and (when no stale handle was held going in,
as at every call site in `main`) no transport handle is held — and it stays
that way under any further operations until some `Connect` succeeds. -/
theorem failed_connect_leaves_disconnected (s : SlackWebSocket)
    (evs : List WSEvent)
    (h : evs.all (fun e => !isConnectOkEvent e) = true)
    (hconn : s.conn = false) :
    IsConnectedWS (wsRun (Connect s false).1 evs).1 = false ∧
    (wsRun (Connect s false).1 evs).1.conn = false := by
  have h0 : (Connect s false).1.isConnected = false := rfl
  have h1 : (Connect s false).1.conn = s.conn := rfl
  have := wsRun_stays_disconnected evs (Connect s false).1 h h0
  exact ⟨this.1, this.2 (by rw [h1, hconn])⟩

/-- C10 witness: after a failed `Connect` on a fresh manager, pings, an
inbound frame, a read failure and a close all leave `IsConnected` false and
no transport held. -/
theorem failed_connect_leaves_disconnected_witness :
    ([WSEvent.ping true, .inbound (InboundMessage.mk "pong" 1 "") true,
        .readFail, .close, .disconnect].all (fun e => !isConnectOkEvent e) = true) ∧
    wsFixture.conn = false ∧
    (IsConnectedWS (wsRun (Connect wsFixture false).1
        [WSEvent.ping true, .inbound (InboundMessage.mk "pong" 1 "") true,
          .readFail, .close, .disconnect]).1 = false ∧
      (wsRun (Connect wsFixture false).1
        [WSEvent.ping true, .inbound (InboundMessage.mk "pong" 1 "") true,
          .readFail, .close, .disconnect]).1.conn = false) :=
  ⟨by decide, rfl, failed_connect_leaves_disconnected wsFixture
    [WSEvent.ping true, .inbound (InboundMessage.mk "pong" 1 "") true,
      .readFail, .close, .disconnect] (by decide) rfl⟩

/-! ## C1 — the activity check against the spec's local-wall-clock reading -/

/-- C1 counterexample: Monday 22:30 UTC with a +5 h offset is Tuesday 03:30
local.  The spec's reading (weekday of the local wall-clock) says active for
`offsetCrossSchedule`, but the first `IsWorkingTime` variant tests the UTC
weekday (Monday) and says inactive. -/
theorem isWorkingTimeV1_weekday_counterexample :
    IsWorkingTimeV1 offsetCrossSchedule 2790 = false ∧
    specIsActive offsetCrossSchedule 2790 = true := by
  constructor <;> decide

/-- C1 amended: the second `IsWorkingTime` variant agrees with the spec's
local-wall-clock reading at every instant and configuration; the first
variant agrees whenever the offset is zero (in particular under the default
configuration), but for nonzero offsets it tests the unadjusted UTC
weekday. -/
theorem isActive_characterization (s : Schedule) (now : Instant) :
    IsWorkingTimeV2 s now = specIsActive s now ∧
    (s.offset = 0 → IsWorkingTimeV1 s now = specIsActive s now) := by
  constructor
  · simp only [IsWorkingTimeV2, specIsActive, hourOf_minOf]
  · intro h0
    have h1 : goMod (hourOf now + 24) 24 = hourOf now := by
      unfold goMod
      have hb : 0 ≤ hourOf now ∧ hourOf now < 24 := by
        unfold hourOf minuteOfDay
        omega
      rw [Int.tmod_eq_emod (by omega) (by norm_num)]
      omega
    simp only [IsWorkingTimeV1, specIsActive, h0, h1, hourOf_minOf, zero_mul, add_zero]

/-- C1 witness: under the default configuration (offset 0) both variants
agree with the spec's reading at Monday 10:00 UTC. -/
theorem isActive_characterization_witness :
    defaultSchedule.offset = 0 ∧
    IsWorkingTimeV2 defaultSchedule 2040 = specIsActive defaultSchedule 2040 ∧
    IsWorkingTimeV1 defaultSchedule 2040 = specIsActive defaultSchedule 2040 :=
  ⟨rfl, (isActive_characterization defaultSchedule 2040).1,
    (isActive_characterization defaultSchedule 2040).2 rfl⟩

/-! ## C7 — cache persistence round trip -/

theorem matchPre_append (p : List Char) : ∀ l, matchPre p (p ++ l) = some l := by
  induction p with
  | nil => intro l; rfl
  | cons c cs ih =>
    intro l
    simp [matchPre, ih]

theorem hexVal_hexDigitChar (n : Nat) (h : n < 16) :
    hexVal (hexDigitChar n) = some n := by
  interval_cases n <;> decide

/-- Decoding inverts escaping: the decoder consumes an escaped body up to
the closing quote and returns the original characters. -/
theorem unesc_escList (cs : List Char) :
    ∀ rest, unesc (escList cs ++ '"' :: rest) = some (cs, rest) := by
  induction cs with
  | nil =>
    intro rest
    simp only [escList, List.nil_append]
    conv_lhs => unfold unesc
    simp
  | cons c cs ih =>
    intro rest
    rw [escList]
    by_cases h1 : c = '"'
    · subst h1
      rw [show escChar '"' = ['\\', '"'] from by decide]
      simp only [List.cons_append, List.nil_append]
      conv_lhs => unfold unesc
      simp [ih]
    · by_cases h2 : c = '\\'
      · subst h2
        rw [show escChar '\\' = ['\\', '\\'] from by decide]
        simp only [List.cons_append, List.nil_append]
        conv_lhs => unfold unesc
        simp [ih]
      · by_cases h3 : c = '\n'
        · subst h3
          rw [show escChar '\n' = ['\\', 'n'] from by decide]
          simp only [List.cons_append, List.nil_append]
          conv_lhs => unfold unesc
          simp [ih]
        · by_cases h4 : c = '\r'
          · subst h4
            rw [show escChar '\r' = ['\\', 'r'] from by decide]
            simp only [List.cons_append, List.nil_append]
            conv_lhs => unfold unesc
            simp [ih]
          · by_cases h5 : c = '\t'
            · subst h5
              rw [show escChar '\t' = ['\\', 't'] from by decide]
              simp only [List.cons_append, List.nil_append]
              conv_lhs => unfold unesc
              simp [ih]
            · by_cases h6 : needsUEscape c = true
              · rw [escChar, if_neg h1, if_neg h2, if_neg h3, if_neg h4, if_neg h5, if_pos h6]
                simp only [List.cons_append, List.nil_append]
                conv_lhs => unfold unesc
                have hlt : c.toNat < 65536 := by
                  unfold needsUEscape at h6
                  simp only [Bool.or_eq_true, decide_eq_true_eq] at h6
                  rcases h6 with ((((hc | hc) | hc) | hc) | hc) | hc
                  · omega
                  · subst hc; decide
                  · subst hc; decide
                  · subst hc; decide
                  · omega
                  · omega
                have ha := hexVal_hexDigitChar (c.toNat / 4096 % 16) (Nat.mod_lt _ (by norm_num))
                have hb := hexVal_hexDigitChar (c.toNat / 256 % 16) (Nat.mod_lt _ (by norm_num))
                have hc16 := hexVal_hexDigitChar (c.toNat / 16 % 16) (Nat.mod_lt _ (by norm_num))
                have hd1 := hexVal_hexDigitChar (c.toNat % 16) (Nat.mod_lt _ (by norm_num))
                have hv : c.toNat / 4096 % 16 * 4096 + c.toNat / 256 % 16 * 256
                    + c.toNat / 16 % 16 * 16 + c.toNat % 16 = c.toNat := by
                  omega
                simp [ha, hb, hc16, hd1, ih, hv, Char.ofNat_toNat]
              · rw [escChar, if_neg h1, if_neg h2, if_neg h3, if_neg h4, if_neg h5,
                  if_neg h6, List.singleton_append]
                conv_lhs => unfold unesc
                simp [if_neg h1, if_neg h2, ih]

/-- `json.Unmarshal` recovers exactly the URL `json.MarshalIndent` wrote. -/
theorem decodeCache_encodeCache (u : String) :
    decodeCache (encodeCache u) = some u := by
  unfold decodeCache encodeCache
  show (matchPre jsonPre (jsonPre ++ escList u.data ++ '"' :: jsonSuf)).bind _ = _
  rw [List.append_assoc, matchPre_append]
  simp [unesc_escList]

/-- C7: for every URL `u`, `SetWebSocketURL u` followed by a fresh load of
the same cache file (as a new process performs at startup) yields a cache
whose stored URL is `u`. -/
theorem cache_set_load_roundtrip (c : CacheState) (u : String) :
    (loadCache ((SetWebSocketURL c u true).1.file)).map GetWebSocketURL = some u := by
  simp [SetWebSocketURL, save, loadCache, decodeCache_encodeCache, GetWebSocketURL]

/-! ## C2 — the next-transition computation -/

theorem dayOf_add_mul (t j : Int) : dayOf (t + j * 1440) = dayOf t + j := by
  unfold dayOf
  rw [Int.add_mul_ediv_right _ _ (by norm_num : (1440 : Int) ≠ 0)]

theorem weekdayOf_add_mul (t j : Int) :
    weekdayOf (t + j * 1440) = (weekdayOf t + j) % 7 := by
  unfold weekdayOf
  rw [dayOf_add_mul]
  omega

theorem offsetsUpTo_eq (n : Nat) : offsetsUpTo n = (offsetsFrom0 n).map (· + 1) := by
  induction n with
  | zero => rfl
  | succ n ih => simp [offsetsUpTo, offsetsFrom0, ih]

/-- The day scan of the first variant, in closed form: it returns the value
determined by the least day distance `j ∈ [1, fuel]` whose stepped weekday
is a work day. -/
theorem findNextWorkDayV1_eq (s : Schedule) (now : Instant) :
    ∀ (fuel : Nat) (w d : Int), 0 ≤ w →
      findNextWorkDayV1 s now fuel w d =
        ((offsetsUpTo fuel).find? (fun j => s.workDays.contains ((w + j) % 7))).map
          (fun j => (dayOf now + (d + j)) * 1440
            + goMod (s.startT / 60 - s.offset + 24) 24 * 60 + s.startT % 60) := by
  intro fuel
  induction fuel with
  | zero =>
    intro w d hw
    simp [findNextWorkDayV1, offsetsUpTo]
  | succ fuel ih =>
    intro w d hw
    have hnd : goMod (w + 1) 7 = (w + 1) % 7 := by
      unfold goMod
      exact Int.tmod_eq_emod (by omega) (by norm_num)
    simp only [findNextWorkDayV1, hnd]
    by_cases hc : s.workDays.contains ((w + 1) % 7) = true
    · rw [if_pos hc]
      rw [show offsetsUpTo (fuel + 1) = 1 :: (offsetsUpTo fuel).map (· + 1) from rfl]
      rw [List.find?_cons_of_pos _ (by simpa using hc)]
      simp
    · rw [if_neg hc]
      rw [ih ((w + 1) % 7) (d + 1) (Int.emod_nonneg _ (by norm_num))]
      rw [show offsetsUpTo (fuel + 1) = 1 :: (offsetsUpTo fuel).map (· + 1) from rfl]
      rw [List.find?_cons_of_neg _ (by simpa using hc)]
      rw [List.find?_map, Option.map_map]
      have hp : (fun j : Int => s.workDays.contains (((w + 1) % 7 + j) % 7))
          = ((fun j : Int => s.workDays.contains ((w + j) % 7)) ∘ fun x => x + 1) := by
        funext j
        simp only [Function.comp_apply]
        have harg : ((w + 1) % 7 + j) % 7 = (w + (j + 1)) % 7 := by omega
        rw [harg]
      have hf : (fun j : Int => (dayOf now + (d + 1 + j)) * 1440
            + goMod (s.startT / 60 - s.offset + 24) 24 * 60 + s.startT % 60)
          = ((fun j : Int => (dayOf now + (d + j)) * 1440
            + goMod (s.startT / 60 - s.offset + 24) 24 * 60 + s.startT % 60)
              ∘ fun x => x + 1) := by
        funext j
        simp only [Function.comp_apply]
        ring
      rw [hp, hf]

/-- The day scan of the second variant, in closed form: it returns the value
determined by the least offset `j ∈ [0, fuel)` of full days past `t` whose
weekday is a work day. -/
theorem findNextWorkDayV2_eq (s : Schedule) :
    ∀ (fuel : Nat) (t : Instant),
      findNextWorkDayV2 s fuel t =
        ((offsetsFrom0 fuel).find?
            (fun j => s.workDays.contains (weekdayOf (t + j * 1440)))).map
          (fun j => dayOf (t + j * 1440) * 1440 + s.startT - s.offset * 60) := by
  intro fuel
  induction fuel with
  | zero =>
    intro t
    simp [findNextWorkDayV2, offsetsFrom0]
  | succ fuel ih =>
    intro t
    simp only [findNextWorkDayV2]
    by_cases hc : s.workDays.contains (weekdayOf t) = true
    · rw [if_pos hc]
      rw [show offsetsFrom0 (fuel + 1) = 0 :: (offsetsFrom0 fuel).map (· + 1) from rfl]
      rw [List.find?_cons_of_pos _ (by simpa using hc)]
      simp
    · rw [if_neg hc]
      rw [ih (t + 1440)]
      rw [show offsetsFrom0 (fuel + 1) = 0 :: (offsetsFrom0 fuel).map (· + 1) from rfl]
      rw [List.find?_cons_of_neg _ (by simpa using hc)]
      rw [List.find?_map, Option.map_map]
      have hp : (fun j : Int => s.workDays.contains (weekdayOf (t + 1440 + j * 1440)))
          = ((fun j : Int => s.workDays.contains (weekdayOf (t + j * 1440)))
              ∘ fun x => x + 1) := by
        funext j
        simp only [Function.comp_apply]
        have harg : t + 1440 + j * 1440 = t + (j + 1) * 1440 := by ring
        rw [harg]
      have hf : (fun j : Int => dayOf (t + 1440 + j * 1440) * 1440 + s.startT - s.offset * 60)
          = ((fun j : Int => dayOf (t + j * 1440) * 1440 + s.startT - s.offset * 60)
              ∘ fun x => x + 1) := by
        funext j
        simp only [Function.comp_apply]
        have harg : t + 1440 + j * 1440 = t + (j + 1) * 1440 := by ring
        rw [harg]
      rw [hp, hf]

/-- C2 counterexample: under the default configuration, at the active
instant Monday 10:00 UTC the second `GetNextWorkingTime` variant returns
`now` itself rather than today's 17:00 end; and at the inactive instant
Saturday 10:00 UTC (inside the time window but not a work day) the first
variant returns Saturday's 17:00 end rather than the next work day's
start (Monday 09:00 = 12060). -/
theorem getNextWorkingTime_counterexample :
    specIsActive defaultSchedule 2040 = true ∧
    GetNextWorkingTimeV2 defaultSchedule 2040 = some 2040 ∧
    GetNextWorkingTimeV2 defaultSchedule 2040 ≠ some 2460 ∧
    specIsActive defaultSchedule 9240 = false ∧
    GetNextWorkingTimeV1 defaultSchedule 9240 = some 9660 ∧
    GetNextWorkingTimeV1 defaultSchedule 9240 ≠ some 12060 := by
  refine ⟨by decide, by decide, by decide, by decide, by decide, by decide⟩

/-- C2 amended: both `GetNextWorkingTime` variants equal their closed-form
descriptions at every configuration and instant: the first returns, inside
the window (weekday ignored), today's end with hour `(end.Hour − offset)
mod 24`, and otherwise the start, shifted the same wrapped way, of the
least `j ∈ [1,7]` days ahead whose UTC weekday is a work day; the second
returns, before the local start (weekday ignored), today's local start
minus the offset, after the local end the start minus the offset of the
least `j ∈ [1,7]` local days ahead whose weekday is a work day, and inside
`[start, end]` the unchanged `now`. -/
theorem getNextWorkingTime_characterization (s : Schedule) (now : Instant) :
    GetNextWorkingTimeV1 s now = nextV1Spec s now ∧
    GetNextWorkingTimeV2 s now = nextV2Spec s now := by
  constructor
  · simp only [GetNextWorkingTimeV1, nextV1Spec, nextWorkDayDelta]
    by_cases h : s.startT < goMod (hourOf now + s.offset + 24) 24 * 60 + minOf now ∧
        goMod (hourOf now + s.offset + 24) 24 * 60 + minOf now < s.endT
    · rw [if_pos h, if_pos h]
    · rw [if_neg h, if_neg h]
      rw [findNextWorkDayV1_eq s now 7 (weekdayOf now) 0 (weekdayOf_nonneg now)]
      congr 1
      funext j
      ring_nf
  · simp only [GetNextWorkingTimeV2, nextV2Spec, hourOf_minOf]
    by_cases h1 : minuteOfDay (now + s.offset * 60) < s.startT
    · rw [if_pos h1, if_pos h1]
    · rw [if_neg h1, if_neg h1]
      by_cases h2 : s.endT < minuteOfDay (now + s.offset * 60)
      · rw [if_pos h2, if_pos h2]
        rw [findNextWorkDayV2_eq s 7 (now + s.offset * 60 + 1440)]
        rw [nextWorkDayDelta, offsetsUpTo_eq, List.find?_map, Option.map_map]
        have hp : (fun j : Int =>
              s.workDays.contains (weekdayOf (now + s.offset * 60 + 1440 + j * 1440)))
            = ((fun j : Int =>
                s.workDays.contains ((weekdayOf (now + s.offset * 60) + j) % 7))
              ∘ fun x => x + 1) := by
          funext j
          simp only [Function.comp_apply]
          have harg : now + s.offset * 60 + 1440 + j * 1440
              = now + s.offset * 60 + (j + 1) * 1440 := by ring
          rw [harg, weekdayOf_add_mul]
        have hf : (fun j : Int =>
              dayOf (now + s.offset * 60 + 1440 + j * 1440) * 1440 + s.startT - s.offset * 60)
            = ((fun j : Int =>
                (dayOf (now + s.offset * 60) + j) * 1440 + s.startT - s.offset * 60)
              ∘ fun x => x + 1) := by
          funext j
          simp only [Function.comp_apply]
          have harg : now + s.offset * 60 + 1440 + j * 1440
              = now + s.offset * 60 + (j + 1) * 1440 := by ring
          rw [harg, dayOf_add_mul]
        rw [hp, hf]
      · rw [if_neg h2, if_neg h2]
        congr 1
        ring
